import Mathlib

/-!
Shallow embedding of the financial derivation logic of the LR-MANAGER
logistics application: the booking-register / vehicle-hiring balance
recomputation effects, the payment-ledger add/remove/sanitize operations,
the invoice tax-total computation, the amount-to-words renderer, and the
optimistic-update rollback in the lorry-receipt status handler.

JavaScript numeric values that may be `undefined` or `NaN` are modelled as
`Option ℚ` (`none` covers undefined/missing/NaN, which behave identically in
every coercion and comparison the sources perform); finite numbers are
`some q`.  Monetary arithmetic is exact rational arithmetic, matching the
sources' use of plain JS `+`/`-`/`*` with no rounding layer.
-/

namespace LRManager

/-- JS coercion `Number(x) || 0`: a missing or NaN value becomes `0`,
a finite number is kept (`0 || 0` is `0`, so `some 0` also maps to `0`). -/
def numOr0 : Option ℚ → ℚ
  | none => 0
  | some q => q

/-- JS truthiness of a numeric value: `undefined`, `NaN` and `0` are falsy. -/
def jsTruthyNum : Option ℚ → Bool
  | none => false
  | some q => q != 0

/-- JS comparison `x <= 0`: false when `x` is `NaN`/`undefined`. -/
def jsLeZero : Option ℚ → Bool
  | none => false
  | some q => q ≤ 0

/-- JS `s || dflt` for an optional string: `undefined` and `""` are falsy. -/
def jsOrString (s : Option String) (dflt : String) : String :=
  match s with
  | none => dflt
  | some s => if s = "" then dflt else s

/-- `PaymentRecord` from `types.ts`: one advance-payment ledger entry.
`amount` is `Option ℚ` because the form writes `parseFloat(e.target.value)`
without a fallback, so `NaN` can reach the entry. -/
structure PaymentRecord where
  amount : Option ℚ
  date : String
  notes : Option String
deriving DecidableEq

/-- The runtime shape of a loaded record's `advances` field: a genuine JS
array, the absent/`undefined` value, or some other (malformed, non-array)
value.  `Array.isArray` is true only for `arr`. -/
inductive AdvancesVal where
  | arr (entries : List PaymentRecord)
  | undef
  | other
deriving DecidableEq

/-- `Array.isArray(x) ? x : []`, the normalization used throughout
`BookingRegister.tsx`. -/
def advancesListOf : AdvancesVal → List PaymentRecord
  | .arr l => l
  | _ => []

/-- `BookingRecord` from `types.ts`, restricted to the fields that
participate in the financial derivations of `BookingRegister.tsx`. -/
structure BookingRecord where
  date : Option String
  freight : Option ℚ
  advance : Option ℚ
  advances : AdvancesVal
  balance : Option ℚ
  otherExpenses : Option ℚ
  totalBalance : Option ℚ
deriving DecidableEq

/-- The ledger-aggregation reduce of `BookingRegister.tsx` line 55:
`advancesList.reduce((sum, p) => sum + (Number(p.amount) || 0), 0)`. -/
def ledgerTotal (l : List PaymentRecord) : ℚ :=
  l.foldl (fun sum p => sum + numOr0 p.amount) 0

/-- The balance-recomputation `useEffect` of `BookingRegister.tsx`
lines 52–69, which runs whenever `freight`, `advances`, or
`otherExpenses` change: derives `advance` from the ledger, then
`balance = freight - totalAdvance` and `totalBalance = balance +
otherExpenses`, writing all three back into the form state. -/
def brCalcEffect (f : BookingRecord) : BookingRecord :=
  let advancesList := advancesListOf f.advances
  let totalAdvance := ledgerTotal advancesList
  let balance := numOr0 f.freight - totalAdvance
  let total := balance + numOr0 f.otherExpenses
  { f with advance := some totalAdvance, balance := some balance,
           totalBalance := some total }

/-- `VehicleHiring` from `types.ts`, restricted to its financial fields.
The type has no `advances` ledger field at all. -/
structure VehicleHiringR where
  freight : Option ℚ
  advance : Option ℚ
  balance : Option ℚ
  otherExpenses : Option ℚ
  totalBalance : Option ℚ
deriving DecidableEq

/-- The vehicle-hiring balance `useEffect` (lines 42–50 of the
`VehicleHiring` component): `balance = (Number(freight) || 0) -
(Number(advance) || 0)`, `totalBalance = balance + (Number(otherExpenses)
|| 0)`.  Unlike the booking form it reads `advance` directly; it does not
derive it. -/
def vhCalcEffect (r : VehicleHiringR) : VehicleHiringR :=
  let balance := numOr0 r.freight - numOr0 r.advance
  let total := balance + numOr0 r.otherExpenses
  { r with balance := some balance, totalBalance := some total }

/-- The vehicle-hiring form's Advance input `onChange` handler:
`setFormData({...formData, advance: parseFloat(e.target.value) || 0})`.
The parsed value (`none` = `NaN`) is coerced and stored directly. -/
def vhSetAdvance (r : VehicleHiringR) (v : Option ℚ) : VehicleHiringR :=
  { r with advance := some (numOr0 v) }

theorem ledgerTotal_eq_sum (l : List PaymentRecord) :
    ledgerTotal l = (l.map (fun p => numOr0 p.amount)).sum := by
  have h : ∀ (l : List PaymentRecord) (a : ℚ),
      l.foldl (fun sum p => sum + numOr0 p.amount) a
        = a + (l.map (fun p => numOr0 p.amount)).sum := by
    intro l
    induction l with
    | nil => intro a; simp
    | cons p t ih => intro a; simp [List.foldl, ih, add_assoc]
  simpa using h l 0

/-- A concrete booking form whose ledger exceeds its freight, used to show
that a negative balance is kept without clamping. -/
def brOverpaid : BookingRecord :=
  { date := some "2024-01-01", freight := some 50, advance := some 0,
    advances := .arr [⟨some 100, "2024-01-02", none⟩],
    balance := some 0, otherExpenses := some 7, totalBalance := some 0 }

/-- C1: in both the booking form and the vehicle-hiring form, the
recomputation effect yields `balance = freight − advanceTotal` and
`totalBalance = balance + otherExpenses` exactly, with missing/non-numeric
inputs coerced to 0, negative balances kept un-clamped, and no rounding. -/
theorem balance_recompute_correct :
    (∀ f : BookingRecord,
      (brCalcEffect f).balance
          = some (numOr0 f.freight
              - ((advancesListOf f.advances).map (fun p => numOr0 p.amount)).sum)
        ∧ (brCalcEffect f).totalBalance
          = some ((numOr0 f.freight
              - ((advancesListOf f.advances).map (fun p => numOr0 p.amount)).sum)
              + numOr0 f.otherExpenses))
    ∧ (∀ r : VehicleHiringR,
      (vhCalcEffect r).balance = some (numOr0 r.freight - numOr0 r.advance)
        ∧ (vhCalcEffect r).totalBalance
          = some ((numOr0 r.freight - numOr0 r.advance) + numOr0 r.otherExpenses))
    ∧ (brCalcEffect brOverpaid).balance = some (-50)
    ∧ (brCalcEffect brOverpaid).totalBalance = some (-43) := by
  refine ⟨fun f => ?_, fun r => ?_, ?_, ?_⟩
  · exact ⟨by simp [brCalcEffect, ledgerTotal_eq_sum],
      by simp [brCalcEffect, ledgerTotal_eq_sum]⟩
  · exact ⟨rfl, rfl⟩
  · simp [brCalcEffect, brOverpaid, ledgerTotal, numOr0, advancesListOf]
    norm_num
  · simp [brCalcEffect, brOverpaid, ledgerTotal, numOr0, advancesListOf]
    norm_num

/-- `DetailedCharges` from `types.ts`: the fixed named surcharge categories
of a lorry receipt.  Values may be missing/NaN on a loaded record. -/
structure DetailedCharges where
  hamail : Option ℚ
  surCharge : Option ℚ
  stCharge : Option ℚ
  collectionCharge : Option ℚ
  ddCharge : Option ℚ
  otherCharge : Option ℚ
  riskCharge : Option ℚ
deriving DecidableEq

/-- `Object.values(lr.charges || {})`: the list of charge values, in the
declaration order of `DetailedCharges`; a missing charges object gives the
empty list. -/
def chargesValues : Option DetailedCharges → List (Option ℚ)
  | none => []
  | some c => [c.hamail, c.surCharge, c.stCharge, c.collectionCharge,
               c.ddCharge, c.otherCharge, c.riskCharge]

/-- A lorry receipt viewed as an invoice line item (`InvoiceModal.tsx`
uses only `freight` and `charges` in the totals). -/
structure InvoiceLineItem where
  freight : Option ℚ
  charges : Option DetailedCharges
deriving DecidableEq

/-- The two-valued tax flag of `InvoiceModal.tsx`. -/
inductive TaxType where
  | intra
  | inter
deriving DecidableEq

structure InvoiceTotals where
  totalAmount : ℚ
  cgst : ℚ
  sgst : ℚ
  igst : ℚ
  netAmount : ℚ
deriving DecidableEq

/-- The per-line-item charges reduce of `InvoiceModal.tsx` line 26:
`Object.values(lr.charges || {}).reduce((s, c) => s + (c || 0), 0)`. -/
def lrTotalCharges (lr : InvoiceLineItem) : ℚ :=
  (chargesValues lr.charges).foldl (fun chargeSum charge => chargeSum + numOr0 charge) 0

/-- The invoice totals computed inline in `InvoiceContent`
(`InvoiceModal.tsx` lines 25–34): the freight+charges reduce, the fixed
2.5 % CGST/SGST (intra) or 5 % IGST (inter) split, and their sum. -/
def computeInvoiceTotals (lrs : List InvoiceLineItem) (taxType : TaxType) :
    InvoiceTotals :=
  let totalAmount := lrs.foldl
    (fun sum lr => sum + (numOr0 lr.freight + lrTotalCharges lr)) 0
  let totalCgst := if taxType = .intra then totalAmount * (25/1000) else 0
  let totalSgst := if taxType = .intra then totalAmount * (25/1000) else 0
  let totalIgst := if taxType = .inter then totalAmount * (5/100) else 0
  let netAmount := totalAmount + totalCgst + totalSgst + totalIgst
  ⟨totalAmount, totalCgst, totalSgst, totalIgst, netAmount⟩

theorem invoice_totalAmount_eq_sum (lrs : List InvoiceLineItem)
    (taxType : TaxType) :
    (computeInvoiceTotals lrs taxType).totalAmount
      = (lrs.map (fun lr =>
          numOr0 lr.freight
            + ((chargesValues lr.charges).map numOr0).sum)).sum := by
  have h : ∀ (l : List InvoiceLineItem) (a : ℚ),
      l.foldl (fun sum lr => sum + (numOr0 lr.freight + lrTotalCharges lr)) a
        = a + (l.map (fun lr =>
            numOr0 lr.freight + ((chargesValues lr.charges).map numOr0).sum)).sum := by
    intro l
    induction l with
    | nil => intro a; simp
    | cons x t ih =>
      intro a
      have hc : lrTotalCharges x = ((chargesValues x.charges).map numOr0).sum := by
        have h2 : ∀ (cl : List (Option ℚ)) (b : ℚ),
            cl.foldl (fun s c => s + numOr0 c) b = b + (cl.map numOr0).sum := by
          intro cl
          induction cl with
          | nil => intro b; simp
          | cons c ct ihc => intro b; simp [List.foldl, ihc, add_assoc]
        simpa [lrTotalCharges] using h2 (chargesValues x.charges) 0
      simp [List.foldl, ih, hc, add_assoc]
  simpa [computeInvoiceTotals] using h lrs 0

/-- C2: `totalAmount` is the sum over line items of freight plus all charge
values (missing values coerced to 0); intra-state gives
`cgst = sgst = totalAmount × 0.025`, `igst = 0`; inter-state gives
`igst = totalAmount × 0.05`, `cgst = sgst = 0`;
`netAmount = totalAmount + cgst + sgst + igst`; and a single line item of
freight 1000 under intra yields cgst 25, sgst 25, igst 0, netAmount 1050. -/
theorem computeInvoiceTotals_correct :
    (∀ (lrs : List InvoiceLineItem) (taxType : TaxType),
      (computeInvoiceTotals lrs taxType).totalAmount
        = (lrs.map (fun lr =>
            numOr0 lr.freight + ((chargesValues lr.charges).map numOr0).sum)).sum
      ∧ (computeInvoiceTotals lrs taxType).netAmount
        = (computeInvoiceTotals lrs taxType).totalAmount
          + (computeInvoiceTotals lrs taxType).cgst
          + (computeInvoiceTotals lrs taxType).sgst
          + (computeInvoiceTotals lrs taxType).igst)
    ∧ (∀ lrs : List InvoiceLineItem,
      (computeInvoiceTotals lrs .intra).cgst
          = (computeInvoiceTotals lrs .intra).totalAmount * (25/1000)
      ∧ (computeInvoiceTotals lrs .intra).sgst
          = (computeInvoiceTotals lrs .intra).totalAmount * (25/1000)
      ∧ (computeInvoiceTotals lrs .intra).igst = 0
      ∧ (computeInvoiceTotals lrs .inter).igst
          = (computeInvoiceTotals lrs .inter).totalAmount * (5/100)
      ∧ (computeInvoiceTotals lrs .inter).cgst = 0
      ∧ (computeInvoiceTotals lrs .inter).sgst = 0)
    ∧ computeInvoiceTotals [⟨some 1000, none⟩] .intra
        = ⟨1000, 25, 25, 0, 1050⟩ := by
  refine ⟨fun lrs taxType => ⟨invoice_totalAmount_eq_sum lrs taxType, rfl⟩,
    fun lrs => ⟨rfl, rfl, rfl, rfl, rfl, rfl⟩, ?_⟩
  simp [computeInvoiceTotals, lrTotalCharges, chargesValues, numOr0]
  norm_num

/-- `handleAddPayment` from `BookingRegister.tsx` lines 185–199: rejects
when `!newPayment.amount || newPayment.amount <= 0` (leaving the form
unchanged, surfacing a toast error — modelled as the `false` flag),
otherwise appends the entry to the end of the advances array.  Returns the
new form state and whether the entry was added. -/
def handleAddPayment (form : BookingRecord) (newPayment : PaymentRecord) :
    BookingRecord × Bool :=
  if !jsTruthyNum newPayment.amount || jsLeZero newPayment.amount then
    (form, false)
  else
    ({ form with advances := .arr (advancesListOf form.advances ++ [newPayment]) },
     true)

/-- The position-indexed filter of `handleRemovePayment`
(`BookingRegister.tsx` line 204): `filter((_, i) => i !== index)`, with `k`
the position of the head of the remaining list. -/
def removeEntryGo (idx : Int) (k : Int) : List PaymentRecord → List PaymentRecord
  | [] => []
  | p :: rest =>
      if k = idx then removeEntryGo idx (k + 1) rest
      else p :: removeEntryGo idx (k + 1) rest

/-- `(prev.advances || []).filter((_, i) => i !== index)` applied to the
ledger list. -/
def removeEntry (l : List PaymentRecord) (idx : Int) : List PaymentRecord :=
  removeEntryGo idx 0 l

/-- `handleRemovePayment` from `BookingRegister.tsx` lines 201–206. -/
def handleRemovePayment (form : BookingRecord) (idx : Int) : BookingRecord :=
  { form with advances := .arr (removeEntry (advancesListOf form.advances) idx) }

/-- The load-time ledger reconciliation of `loadData`
(`BookingRegister.tsx` lines 124–129): keep a genuine array; otherwise, if
the legacy scalar `advance` is truthy, synthesize the single-entry legacy
ledger dated `record.date || today`; otherwise the empty ledger. -/
def sanitizeAdvances (today : String) (r : BookingRecord) : List PaymentRecord :=
  match r.advances with
  | .arr l => l
  | _ =>
      if jsTruthyNum r.advance then
        [⟨r.advance, jsOrString r.date today, some "Legacy Advance"⟩]
      else []

/-- `handleEdit` from `BookingRegister.tsx` lines 141–147: load the record
into the form, normalizing a non-array `advances` to `[]`. -/
def brHandleEdit (record : BookingRecord) : BookingRecord :=
  { record with advances := .arr (advancesListOf record.advances) }

/-- Opening a record for edit: `handleEdit` immediately followed by the
balance-recomputation `useEffect`, which fires because the form's
`freight`/`advances`/`otherExpenses` dependencies change to the loaded
values. -/
def brOpenForEdit (record : BookingRecord) : BookingRecord :=
  brCalcEffect (brHandleEdit record)

theorem removeEntryGo_of_lt (idx : Int) :
    ∀ (l : List PaymentRecord) (k : Int), idx < k → removeEntryGo idx k l = l := by
  intro l
  induction l with
  | nil => intro k _; rfl
  | cons p rest ih =>
      intro k hk
      have hne : ¬(k = idx) := by omega
      simp [removeEntryGo, hne, ih (k + 1) (by omega)]

theorem removeEntryGo_of_ge (idx : Int) :
    ∀ (l : List PaymentRecord) (k : Int),
      k + l.length ≤ idx → removeEntryGo idx k l = l := by
  intro l
  induction l with
  | nil => intro k _; rfl
  | cons p rest ih =>
      intro k hk
      simp only [List.length_cons] at hk
      have hne : ¬(k = idx) := by omega
      simp [removeEntryGo, hne, ih (k + 1) (by omega)]

theorem removeEntryGo_valid :
    ∀ (l : List PaymentRecord) (i : ℕ) (k : Int), i < l.length →
      removeEntryGo (k + i) k l = l.take i ++ l.drop (i + 1) := by
  intro l
  induction l with
  | nil => intro i k h; simp at h
  | cons p rest ih =>
      intro i k h
      cases i with
      | zero =>
          have : (k + (0 : ℕ) : Int) = k := by omega
          simp [removeEntryGo, this, removeEntryGo_of_lt k rest (k + 1) (by omega)]
      | succ j =>
          have hne : ¬(k = k + ((j + 1 : ℕ) : Int)) := by
            push_cast; omega
          have harg : (k + ((j + 1 : ℕ) : Int)) = (k + 1) + (j : ℕ) := by
            push_cast; omega
          simp only [List.length_cons] at h
          calc removeEntryGo (k + ((j + 1 : ℕ) : Int)) k (p :: rest)
              = p :: removeEntryGo (k + ((j + 1 : ℕ) : Int)) (k + 1) rest := by
                simp only [removeEntryGo]; rw [if_neg hne]
            _ = p :: removeEntryGo ((k + 1) + (j : ℕ)) (k + 1) rest := by rw [harg]
            _ = p :: (rest.take j ++ rest.drop (j + 1)) := by
                rw [ih j (k + 1) (by omega)]
            _ = (p :: rest).take (j + 1) ++ (p :: rest).drop (j + 1 + 1) := by simp

/-- C8: `handleRemovePayment` with a valid index removes exactly the entry
at that position (the result is the ledger's prefix before it followed by
its suffix after it); any negative or past-the-end index leaves the ledger
unchanged. -/
theorem handleRemovePayment_correct (f : BookingRecord) (idx : Int) :
    (∀ i : ℕ, idx = (i : Int) → i < (advancesListOf f.advances).length →
      (handleRemovePayment f idx).advances
        = .arr ((advancesListOf f.advances).take i
            ++ (advancesListOf f.advances).drop (i + 1)))
    ∧ ((idx < 0 ∨ ((advancesListOf f.advances).length : Int) ≤ idx) →
      (handleRemovePayment f idx).advances = .arr (advancesListOf f.advances)) := by
  constructor
  · intro i hi hlen
    have hv := removeEntryGo_valid (advancesListOf f.advances) i 0 hlen
    rw [zero_add] at hv
    simp [handleRemovePayment, removeEntry, hi, hv]
  · intro hcase
    rcases hcase with hneg | hge
    · simp [handleRemovePayment, removeEntry,
        removeEntryGo_of_lt idx (advancesListOf f.advances) 0 (by omega)]
    · simp [handleRemovePayment, removeEntry,
        removeEntryGo_of_ge idx (advancesListOf f.advances) 0 (by omega)]

/-- A 2-entry form used to exercise the removal handler at concrete
indices. -/
def brTwoEntries : BookingRecord :=
  { date := some "2024-01-01", freight := some 1000, advance := some 0,
    advances := .arr [⟨some 200, "2024-01-02", none⟩, ⟨some 300, "2024-01-03", none⟩],
    balance := some 0, otherExpenses := some 0, totalBalance := some 0 }

theorem handleRemovePayment_witness :
    (handleRemovePayment brTwoEntries 5).advances
        = .arr [⟨some 200, "2024-01-02", none⟩, ⟨some 300, "2024-01-03", none⟩]
    ∧ (handleRemovePayment brTwoEntries (-1)).advances
        = .arr [⟨some 200, "2024-01-02", none⟩, ⟨some 300, "2024-01-03", none⟩]
    ∧ (handleRemovePayment brTwoEntries 0).advances
        = .arr [⟨some 300, "2024-01-03", none⟩] :=
  ⟨(handleRemovePayment_correct brTwoEntries 5).2 (by right; decide),
   (handleRemovePayment_correct brTwoEntries (-1)).2 (by left; decide),
   (handleRemovePayment_correct brTwoEntries 0).1 0 rfl (by decide)⟩

/-- A vehicle-hiring record before the user edits the Advance field. -/
def vhSample : VehicleHiringR :=
  { freight := some 500, advance := some 0, balance := some 0,
    otherExpenses := some 0, totalBalance := some 0 }

/-- C3 counterexample: in the vehicle-hiring form the `advance` field is a
directly user-editable scalar — after the user types 100 into the Advance
input and the recompute effect runs, `advance` is 100, which differs from
the sum (0) of the entity's payment ledger (the `VehicleHiring` type
carries no ledger at all, so its ledger is empty). -/
theorem advance_user_set_cex :
    (vhCalcEffect (vhSetAdvance vhSample (some 100))).advance = some 100
    ∧ ledgerTotal ([] : List PaymentRecord) = 0
    ∧ (vhCalcEffect (vhSetAdvance vhSample (some 100))).advance
        ≠ some (ledgerTotal ([] : List PaymentRecord)) := by
  refine ⟨rfl, rfl, ?_⟩
  simp [vhCalcEffect, vhSetAdvance, vhSample, numOr0, ledgerTotal]

/-- C3 (amended): in the booking register, every run of the
recomputation effect derives `advance` as the sum of the ledger amounts;
in the vehicle-hiring form, `advance` is whatever the user last typed
(coerced), not a ledger aggregate. -/
theorem advance_derived_from_ledger :
    (∀ f : BookingRecord,
      (brCalcEffect f).advance
        = some ((advancesListOf f.advances).map (fun p => numOr0 p.amount)).sum)
    ∧ (∀ (r : VehicleHiringR) (v : Option ℚ),
      (vhCalcEffect (vhSetAdvance r v)).advance = some (numOr0 v)) := by
  refine ⟨fun f => ?_, fun r v => rfl⟩
  simp [brCalcEffect, ledgerTotal_eq_sum]

/-- C4: `handleAddPayment` rejects (validation failure, advances
unmodified) exactly when the amount is missing/NaN or `≤ 0`; for every
amount `> 0` it appends the entry at the end of the list. -/
theorem handleAddPayment_correct (form : BookingRecord) (p : PaymentRecord) :
    ((handleAddPayment form p).2 = false
        ↔ p.amount = none ∨ ∃ q, p.amount = some q ∧ q ≤ 0)
    ∧ ((handleAddPayment form p).2 = false → (handleAddPayment form p).1 = form)
    ∧ (∀ q : ℚ, p.amount = some q → 0 < q →
        (handleAddPayment form p).1.advances
            = .arr (advancesListOf form.advances ++ [p])
          ∧ (handleAddPayment form p).2 = true) := by
  cases hp : p.amount with
  | none =>
      refine ⟨?_, ?_, ?_⟩
      · simp [handleAddPayment, jsTruthyNum, jsLeZero, hp]
      · intro _; simp [handleAddPayment, jsTruthyNum, jsLeZero, hp]
      · intro q hq _; simp at hq
  | some q =>
      by_cases hq : q ≤ 0
      · refine ⟨?_, ?_, ?_⟩
        · constructor
          · intro _; exact Or.inr ⟨q, rfl, hq⟩
          · intro _; simp [handleAddPayment, jsTruthyNum, jsLeZero, hp, hq]
        · intro _; simp [handleAddPayment, jsTruthyNum, jsLeZero, hp, hq]
        · intro q' hq' hpos
          injection hq' with h
          rw [← h] at hpos
          linarith
      · have hne : q ≠ 0 := fun h => hq (le_of_eq h)
        refine ⟨?_, ?_, ?_⟩
        · constructor
          · intro hfalse
            exfalso
            simp [handleAddPayment, jsTruthyNum, jsLeZero, hp, hq, hne] at hfalse
          · intro hor
            exfalso
            rcases hor with h1 | ⟨q', h2, h3⟩
            · simp at h1
            · injection h2 with h; rw [← h] at h3; exact hq h3
        · intro hfalse
          exfalso
          simp [handleAddPayment, jsTruthyNum, jsLeZero, hp, hq, hne] at hfalse
        · intro q' hq' _
          constructor <;>
            simp [handleAddPayment, jsTruthyNum, jsLeZero, hp, hq, hne]

theorem handleAddPayment_witness :
    (handleAddPayment brTwoEntries ⟨some 0, "2024-01-05", none⟩).1 = brTwoEntries
    ∧ (handleAddPayment brTwoEntries ⟨some (1/100), "2024-01-05", none⟩).1.advances
        = .arr (advancesListOf brTwoEntries.advances
            ++ [⟨some (1/100), "2024-01-05", none⟩]) :=
  ⟨(handleAddPayment_correct brTwoEntries ⟨some 0, "2024-01-05", none⟩).2.1
      (by decide),
   ((handleAddPayment_correct brTwoEntries
      ⟨some (1/100), "2024-01-05", none⟩).2.2 (1/100) rfl (by norm_num)).1⟩

/-- C5: the load-time reconciliation keeps an array `advances` unchanged;
with no `advances` and a non-zero legacy `advance` it synthesizes the
single legacy entry dated on the record's own date; with neither it yields
the empty ledger. -/
theorem sanitizeAdvances_correct (today : String) (r : BookingRecord) :
    (∀ l, r.advances = .arr l → sanitizeAdvances today r = l)
    ∧ (∀ (a : ℚ) (d : String), r.advances = .undef → r.advance = some a →
        a ≠ 0 → r.date = some d → d ≠ "" →
        sanitizeAdvances today r = [⟨some a, d, some "Legacy Advance"⟩])
    ∧ (r.advances = .undef → jsTruthyNum r.advance = false →
        sanitizeAdvances today r = []) := by
  refine ⟨?_, ?_, ?_⟩
  · intro l hl; simp [sanitizeAdvances, hl]
  · intro a d hadv ha hane hd hdne
    simp [sanitizeAdvances, hadv, ha, hd, jsTruthyNum, jsOrString, hane, hdne]
  · intro hadv hfalsy
    simp [sanitizeAdvances, hadv, hfalsy]

/-- A persisted legacy record: scalar advance 500, no ledger. -/
def brLegacy : BookingRecord :=
  { date := some "2024-01-01", freight := some 1000, advance := some 500,
    advances := .undef, balance := some 0, otherExpenses := some 0,
    totalBalance := some 0 }

theorem sanitizeAdvances_witness :
    sanitizeAdvances "2026-10-11" brLegacy
      = [⟨some 500, "2024-01-01", some "Legacy Advance"⟩]
    ∧ sanitizeAdvances "2026-10-11" { brLegacy with advance := some 0 } = [] :=
  ⟨(sanitizeAdvances_correct "2026-10-11" brLegacy).2.1 500 "2024-01-01"
      rfl rfl (by norm_num) rfl (by decide),
   (sanitizeAdvances_correct "2026-10-11"
      { brLegacy with advance := some 0 }).2.2 rfl (by decide)⟩

/-- A loaded record whose `advances` is present but malformed (not an
array), with a non-zero legacy scalar advance. -/
def brMalformed : BookingRecord :=
  { date := some "2024-01-01", freight := some 1000, advance := some 500,
    advances := .other, balance := some 0, otherExpenses := some 0,
    totalBalance := some 0 }

/-- C6 counterexample: a record with a malformed (non-array) `advances`
field and legacy scalar advance 500 reconciles to the synthesized
single-entry legacy ledger — not to the empty ledger as the claim states
for every such record. -/
theorem sanitize_malformed_cex :
    sanitizeAdvances "2026-10-11" brMalformed
      = [⟨some 500, "2024-01-01", some "Legacy Advance"⟩]
    ∧ sanitizeAdvances "2026-10-11" brMalformed ≠ ([] : List PaymentRecord) := by
  constructor
  · decide
  · decide

/-- C6 (amended): a malformed `advances` value is treated exactly like a
missing one: the ledger is empty only when the legacy scalar advance is
also falsy (0/missing/NaN); a truthy legacy advance yields the synthesized
single-entry legacy ledger. -/
theorem sanitizeAdvances_malformed (today : String) (r : BookingRecord)
    (h : r.advances = .other) :
    sanitizeAdvances today r
      = if jsTruthyNum r.advance then
          [⟨r.advance, jsOrString r.date today, some "Legacy Advance"⟩]
        else [] := by
  simp [sanitizeAdvances, h]

theorem sanitizeAdvances_malformed_witness :
    sanitizeAdvances "2026-10-11" brMalformed
        = [⟨some 500, "2024-01-01", some "Legacy Advance"⟩]
    ∧ sanitizeAdvances "2026-10-11" { brMalformed with advance := none } = [] := by
  constructor
  · rw [sanitizeAdvances_malformed "2026-10-11" brMalformed rfl]; decide
  · rw [sanitizeAdvances_malformed "2026-10-11"
      { brMalformed with advance := none } rfl]; decide

/-- `LRStatus` from `types.ts`. -/
inductive LRStatus where
  | booked
  | inTransit
  | outForDelivery
  | delivered
  | cancelled
deriving DecidableEq

/-- A lorry receipt restricted to the fields `handleUpdateLRStatus`
touches (the rest ride along unchanged; `freight` stands in for them). -/
structure LorryReceiptR where
  lrNo : String
  status : LRStatus
  freight : Option ℚ
deriving DecidableEq

/-- `handleUpdateLRStatus` from `App.tsx` lines 236–253: snapshot
`originalLRs`, apply the optimistic in-memory status update, then either
replace the row with the server's record (success) or restore the
snapshot (failure).  `persistResult` is the server's record on success,
`none` when the persistence call throws.  Returns the optimistic
intermediate state and the final state. -/
def handleUpdateLRStatus (lorryReceipts : List LorryReceiptR) (lrNo : String)
    (status : LRStatus) (persistResult : Option LorryReceiptR) :
    List LorryReceiptR × List LorryReceiptR :=
  let originalLRs := lorryReceipts
  let updatedLRs := lorryReceipts.map fun lr =>
    if lr.lrNo = lrNo then { lr with status := status } else lr
  match persistResult with
  | some updatedLR =>
      (updatedLRs, updatedLRs.map fun lr => if lr.lrNo = lrNo then updatedLR else lr)
  | none => (updatedLRs, originalLRs)

/-- C9: when the persistence call fails, the final lorry-receipt list is
exactly the list from before the update — the optimistic update (visible
in the intermediate state, as the concrete run shows) is rolled back. -/
theorem updateLRStatus_rollback :
    (∀ (lrs : List LorryReceiptR) (lrNo : String) (st : LRStatus),
      (handleUpdateLRStatus lrs lrNo st none).2 = lrs)
    ∧ (handleUpdateLRStatus [⟨"LR1", .booked, some 10⟩] "LR1"
        .delivered none).1 = [⟨"LR1", .delivered, some 10⟩]
    ∧ (handleUpdateLRStatus [⟨"LR1", .booked, some 10⟩] "LR1"
        .delivered none).2 = [⟨"LR1", .booked, some 10⟩] := by
  exact ⟨fun lrs lrNo st => rfl, by decide, by decide⟩

/-- A persisted record whose stored derived fields are stale: empty
ledger but scalar `advance = 500`, `balance = 300`. -/
def brStale : BookingRecord :=
  { date := some "2024-01-01", freight := some 800, advance := some 500,
    advances := .arr [], balance := some 300, otherExpenses := some 0,
    totalBalance := some 300 }

/-- C10: opening a record for edit recomputes `advance`, `balance` and
`totalBalance` from the raw freight, ledger and expenses — the persisted
derived values are discarded (the result does not depend on them), and a
record with an empty ledger gets `advance = 0`, `balance = freight` no
matter what scalar advance was stored. -/
theorem openForEdit_recomputes (record : BookingRecord) (a b t : Option ℚ) :
    brOpenForEdit { record with advance := a, balance := b, totalBalance := t }
        = brOpenForEdit record
    ∧ (brOpenForEdit record).advance
        = some ((advancesListOf record.advances).map (fun p => numOr0 p.amount)).sum
    ∧ (record.advances = .arr [] →
        (brOpenForEdit record).advance = some 0
        ∧ (brOpenForEdit record).balance = some (numOr0 record.freight)) := by
  refine ⟨rfl, ?_, ?_⟩
  · simp [brOpenForEdit, brHandleEdit, brCalcEffect, ledgerTotal_eq_sum,
      advancesListOf]
  · intro h
    constructor <;>
      simp [brOpenForEdit, brHandleEdit, brCalcEffect, h, ledgerTotal,
        advancesListOf]

theorem openForEdit_witness :
    (brOpenForEdit brStale).advance = some 0
    ∧ (brOpenForEdit brStale).balance = some 800 := by
  have h := (openForEdit_recomputes brStale none none none).2.2 rfl
  exact ⟨h.1, by simpa [brStale, numOr0] using h.2⟩

/-- Modelled from the spec: the word tables of the amount-to-words
renderer (`src/utils/numberToWords.ts` is imported by `InvoiceModal.tsx`
but its source is not present); words for 0–19, index 0 empty. -/
def onesWords : List String :=
  ["", "One", "Two", "Three", "Four", "Five", "Six", "Seven", "Eight",
   "Nine", "Ten", "Eleven", "Twelve", "Thirteen", "Fourteen", "Fifteen",
   "Sixteen", "Seventeen", "Eighteen", "Nineteen"]

/-- Modelled from the spec: tens words, indices 0 and 1 unused. -/
def tensWords : List String :=
  ["", "", "Twenty", "Thirty", "Forty", "Fifty", "Sixty", "Seventy",
   "Eighty", "Ninety"]

/-- Modelled from the spec: words for a two-digit group (0–99). -/
def twoDigitWords (n : ℕ) : String :=
  if n < 20 then onesWords.getD n ""
  else
    let t := tensWords.getD (n / 10) ""
    let o := onesWords.getD (n % 10) ""
    if o = "" then t else t ++ " " ++ o

/-- Modelled from the spec: `toWords`, the Indian-numbering
(thousand/lakh/crore: groups of 2 digits after the first group of 3)
amount-to-words renderer for a non-negative integer, rendering 0 as
"Zero" and joining the non-zero groups with single spaces.  As a Lean
function it is deterministic and total on all of ℕ. -/
def toWords (n : ℕ) : String :=
  if n = 0 then "Zero"
  else
    let crore := n / 10000000
    let lakh := n / 100000 % 100
    let thousand := n / 1000 % 100
    let hundred := n / 100 % 10
    let rest := n % 100
    let pieces : List String :=
      (if crore ≠ 0 then [twoDigitWords crore ++ " Crore"] else [])
        ++ (if lakh ≠ 0 then [twoDigitWords lakh ++ " Lakh"] else [])
        ++ (if thousand ≠ 0 then [twoDigitWords thousand ++ " Thousand"] else [])
        ++ (if hundred ≠ 0 then [twoDigitWords hundred ++ " Hundred"] else [])
        ++ (if rest ≠ 0 then [twoDigitWords rest] else [])
    String.intercalate " " pieces

/-- C7: `toWords` renders 0 as "Zero", renders the spec's examples with
Indian grouping (`12345678` names crores and lakhs, not millions), and for
every non-zero two-digit group count `k < 100` renders `k` lakh and `k`
crore with the lakh/crore group boundaries (groups of 2 digits after the
first group of 3). -/
theorem toWords_correct :
    toWords 0 = "Zero"
    ∧ toWords 1000 = "One Thousand"
    ∧ toWords 100000 = "One Lakh"
    ∧ toWords 12345678
        = "One Crore Twenty Three Lakh Forty Five Thousand Six Hundred Seventy Eight"
    ∧ (∀ k : ℕ, k < 100 → 0 < k →
        toWords (k * 100000) = twoDigitWords k ++ " Lakh"
          ∧ toWords (k * 10000000) = twoDigitWords k ++ " Crore")
    ∧ (∀ k : ℕ, k < 100 → 0 < k →
        toWords (k * 1000) = twoDigitWords k ++ " Thousand") := by
  refine ⟨by decide, by decide, by decide, by decide, by decide, by decide⟩

theorem toWords_witness :
    toWords 700000 = twoDigitWords 7 ++ " Lakh"
    ∧ toWords 70000000 = twoDigitWords 7 ++ " Crore"
    ∧ toWords 45000 = twoDigitWords 45 ++ " Thousand" :=
  ⟨(toWords_correct.2.2.2.2.1 7 (by decide) (by decide)).1,
   (toWords_correct.2.2.2.2.1 7 (by decide) (by decide)).2,
   toWords_correct.2.2.2.2.2 45 (by decide) (by decide)⟩

end LRManager
